import Mathlib

/-!
Shallow embedding of `avx512counters.go` (intel-go/avx512counters).

The Go program is a single `main` package.  The definitions below translate
its pure / state-passing content:

* the two operand regexes compiled in `collector.init`
  (`memArgRE`, `vmemArgRE`) become executable full-string matchers;
* `testFileScanner` (`init`, `scan`, the `lineRE` regex) becomes explicit
  state passing over a `String → Option String` model of the file system;
* `collector.validateFlags`, `collector.prepareWorkDir` (the generated
  probe source), `collector.collectCounters` and the `evaluateCurrent`
  stub are translated directly.

Machine integers (`uint`) are modelled as `Nat` (no overflow is relevant:
the Go code only compares them with `0` and prints them).  Fallible Go
code returning `error` is modelled with `Option` / explicit outcome
inductives; `log.Printf` output is modelled as a list of structured log
entries; a Go runtime panic (out-of-range slice index) is an explicit
outcome constructor.
-/

/-! ## Character classes used by the Go regular expressions -/

/-- Go regexp `\w` (ASCII word character): `[0-9A-Za-z_]`. -/
def isWordChar (c : Char) : Bool := c.isAlphanum || c = '_'

/-- Character class `[1248]` from the operand regexes (scale factors). -/
def isScaleChar (c : Char) : Bool := c = '1' || c = '2' || c = '4' || c = '8'

/-- Character class `[0-9a-f]` from `lineRE` (lower-case hex digit). -/
def isHexLower (c : Char) : Bool := c.isDigit || ('a' ≤ c && c ≤ 'f')

/-! ## Operand matchers

`collector.init` compiles

*  `memArgRE  = (?:-?\d+)?\(\w+\)(?:\(\w+\*[1248]\))?`
*  `vmemArgRE = (?:-?\d+)?\(\w+\)\(([XYZ])\d+\*[1248]\)`

The matchers below decide whether an operand string is matched by these
patterns in their entirety (the operand either is or is not of the given
shape).  Each sub-pattern is deterministic here because the character
that follows each starred class can never belong to it
(digits/word-chars never include `(`, `)`, `*` or `-`). -/

/-- Sub-pattern `(?:-?\d+)?` of both operand regexes: strip an optional
signed decimal displacement.  `none` when a `-` sign is present but not
followed by at least one digit (then no full match is possible, since the
rest of the pattern starts with a literal parenthesis). -/
def dropDisp (cs : List Char) : Option (List Char) :=
  match cs with
  | [] => some []
  | c :: rest =>
    if c = '-' then
      if (rest.takeWhile Char.isDigit).isEmpty then none
      else some (rest.dropWhile Char.isDigit)
    else some ((c :: rest).dropWhile Char.isDigit)

/-- The closing part `\*[1248]\)` of an index expression, required to be
exactly the remaining input. -/
def starScaleClose (cs : List Char) : Bool :=
  match cs with
  | [c1, sc, c2] => if c1 = '*' ∧ c2 = ')' then isScaleChar sc else false
  | _ => false

/-- Sub-pattern `\(\w+\)` of both operand regexes: a parenthesized base
register.  Returns the remaining input on success. -/
def parseParenWord (cs : List Char) : Option (List Char) :=
  match cs with
  | [] => none
  | c :: rest =>
    if c = '(' then
      if (rest.takeWhile isWordChar).isEmpty then none
      else
        match rest.dropWhile isWordChar with
        | [] => none
        | c' :: rest' => if c' = ')' then some rest' else none
    else none

/-- Sub-pattern `\(\w+\*[1248]\)` of `memArgRE` (the optional index
expression), required to consume the whole remaining input. -/
def matchIndexPart (cs : List Char) : Bool :=
  match cs with
  | [] => false
  | c :: rest =>
    if c = '(' then
      !(rest.takeWhile isWordChar).isEmpty &&
        starScaleClose (rest.dropWhile isWordChar)
    else false

/-- Sub-pattern `\(([XYZ])\d+\*[1248]\)` of `vmemArgRE` (the mandatory
vector index expression), required to consume the whole remaining input. -/
def matchVecIndexPart (cs : List Char) : Bool :=
  match cs with
  | c :: x :: rest =>
    if c = '(' ∧ (x = 'X' ∨ x = 'Y' ∨ x = 'Z') then
      !(rest.takeWhile Char.isDigit).isEmpty &&
        starScaleClose (rest.dropWhile Char.isDigit)
    else false
  | _ => false

/-- The operand string is matched in its entirety by
`memArgRE = (?:-?\d+)?\(\w+\)(?:\(\w+\*[1248]\))?`. -/
def memArgMatch (s : String) : Bool :=
  match dropDisp s.toList with
  | none => false
  | some cs =>
    match parseParenWord cs with
    | none => false
    | some rest => rest.isEmpty || matchIndexPart rest

/-- The operand string is matched in its entirety by
`vmemArgRE = (?:-?\d+)?\(\w+\)\(([XYZ])\d+\*[1248]\)`. -/
def vmemArgMatch (s : String) : Bool :=
  match dropDisp s.toList with
  | none => false
  | some cs =>
    match parseParenWord cs with
    | none => false
    | some rest => matchVecIndexPart rest

/-- The three operand classes of the specification. -/
inductive OperandClass where
  | PlainOperand
  | MemoryOperand
  | VectorMemoryOperand
deriving DecidableEq, Repr

/-- Modelled from the spec: the Operand Classifier component.  The Go
source only compiles the two patterns (`collector.init`); the code that
would apply them (`evaluateCurrent`) is an unimplemented stub, so the
classification discipline is taken from the spec: an operand matched by
the vector-memory pattern is a `VectorMemoryOperand`, an operand matched
by the memory pattern is a `MemoryOperand`, anything else falls back to
`PlainOperand`. -/
def classifyOperand (s : String) : OperandClass :=
  if vmemArgMatch s then .VectorMemoryOperand
  else if memArgMatch s then .MemoryOperand
  else .PlainOperand

example : classifyOperand "(AX)" = .MemoryOperand := by decide
example : classifyOperand "8(AX)(X1*4)" = .VectorMemoryOperand := by decide
example : classifyOperand "8(AX)(R1*4)" = .MemoryOperand := by decide
example : classifyOperand "AX" = .PlainOperand := by decide
example : classifyOperand "8(AX)(XY1*4)" = .MemoryOperand := by decide
example : classifyOperand "-16(BP)" = .MemoryOperand := by decide
example : classifyOperand "-(BP)" = .PlainOperand := by decide

/-! ## Specification-side operand grammar

Independent formalisation of the specification's description of the two
operand shapes ("an optional signed-integer displacement, a parenthesized
base register, an optional parenthesized index-times-scale suffix with
scale in \x7b1,2,4,8\x7d"), stated as an explicit decomposition of the
string, to be compared with the regex-derived matchers above. -/

/-- A nonempty run of decimal digits. -/
def Digits1 (ds : List Char) : Prop := ds ≠ [] ∧ ∀ c ∈ ds, Char.isDigit c

/-- A nonempty run of word characters (a register name as the patterns
accept it). -/
def Word1 (w : List Char) : Prop := w ≠ [] ∧ ∀ c ∈ w, isWordChar c

/-- An optional signed-integer displacement: empty, digits, or a minus
sign followed by digits. -/
def DispOk (d : List Char) : Prop :=
  d = [] ∨ Digits1 d ∨ ∃ ds, d = '-' :: ds ∧ Digits1 ds

/-- A parenthesized index-times-scale suffix `(w*sc)` with `w` a register
name and `sc` a scale in \x7b1,2,4,8\x7d. -/
def IndexOk (i : List Char) : Prop :=
  ∃ w sc, Word1 w ∧ isScaleChar sc ∧ i = '(' :: w ++ '*' :: sc :: [')']

/-- A parenthesized index-times-scale suffix whose index register is an
X, Y or Z designator immediately followed by a (decimal) register
number. -/
def VecIndexOk (i : List Char) : Prop :=
  ∃ x ds sc, (x = 'X' ∨ x = 'Y' ∨ x = 'Z') ∧ Digits1 ds ∧ isScaleChar sc ∧
    i = '(' :: x :: ds ++ '*' :: sc :: [')']

/-- Spec-side memory operand: optional displacement, parenthesized base
register, optional index-times-scale suffix. -/
def MemOperandSpec (s : String) : Prop :=
  ∃ d b i, DispOk d ∧ Word1 b ∧ (i = [] ∨ IndexOk i) ∧
    s.toList = d ++ '(' :: b ++ ')' :: i

/-- Spec-side vector memory operand: the index-times-scale suffix is
mandatory and its index register is an X, Y or Z designator followed by a
register number. -/
def VecMemOperandSpec (s : String) : Prop :=
  ∃ d b i, DispOk d ∧ Word1 b ∧ VecIndexOk i ∧
    s.toList = d ++ '(' :: b ++ ')' :: i

/-- The claim's (looser) vector-memory condition: the index-times-scale
suffix is present and its index register merely *begins with* X, Y or
Z. -/
def ClaimVecOperand (s : String) : Prop :=
  ∃ d b w sc, DispOk d ∧ Word1 b ∧ Word1 w ∧
    (∃ x rest, w = x :: rest ∧ (x = 'X' ∨ x = 'Y' ∨ x = 'Z')) ∧
    isScaleChar sc ∧
    s.toList = d ++ '(' :: b ++ ')' :: '(' :: w ++ '*' :: sc :: [')']

/-! ## The fixture line pattern

`testFileScanner.init` compiles ``lineRE = \t(.*?) (.*?) // [0-9a-f]+``
and `scan` applies it with `FindStringSubmatch` (leftmost match;
the lazy groups take the shortest text compatible with a match; `.`
matches any character except a newline; the final `[0-9a-f]+` is greedy).
The functions below implement exactly that backtracking order. -/

/-- Literal tail ` // ` followed by the greedy `[0-9a-f]+`: if the input
starts with the comment marker and at least one lower-case hex digit,
return the text the pattern tail consumes there. -/
def commentAt (cs : List Char) : Option (List Char) :=
  match cs with
  | ' ' :: '/' :: '/' :: ' ' :: rest =>
    if (rest.takeWhile isHexLower).isEmpty then none
    else some (' ' :: '/' :: '/' :: ' ' :: rest.takeWhile isHexLower)
  | _ => none

/-- Sub-pattern `(.*?) // [0-9a-f]+`: the lazy group first tries to end
at the current position; only if the comment tail does not match here is
one more (non-newline) character consumed into the group.  Returns the
group text and the text consumed by the comment tail. -/
def matchArgsComment : List Char → Option (List Char × List Char)
  | [] => none
  | c :: rest =>
    match commentAt (c :: rest) with
    | some t => some ([], t)
    | none =>
      if c = '\n' then none
      else (matchArgsComment rest).map fun p => (c :: p.1, p.2)

/-- Sub-pattern `(.*?) (.*?) // [0-9a-f]+` (everything after the leading
tab): the first lazy group tries to end before a literal space as early
as possible; a space after which the rest of the pattern cannot match is
consumed into the group.  Returns both group texts and the comment-tail
text. -/
def matchOpArgs : List Char → Option (List Char × List Char × List Char)
  | [] => none
  | c :: rest =>
    match (if c = ' ' then matchArgsComment rest else none) with
    | some (g2, t) => some ([], g2, t)
    | none =>
      if c = '\n' then none
      else (matchOpArgs rest).map fun p => (c :: p.1, p.2.1, p.2.2)

/-- Leftmost application of ``lineRE``: the match must start at a literal
tab; earlier positions (including tabs after which the rest of the
pattern cannot match) are skipped. -/
def findLineMatch : List Char → Option (List Char × List Char × List Char)
  | [] => none
  | c :: rest =>
    if c = '\t' then
      match matchOpArgs rest with
      | some m => some m
      | none => findLineMatch rest
    else findLineMatch rest

/-- Go `lineRE.FindStringSubmatch`: `none` when the line does not match,
otherwise `some (m0, m1, m2)` with the whole matched text and the two
captured groups. -/
def lineREFindSubmatch (s : String) : Option (String × String × String) :=
  (findLineMatch s.toList).map fun m =>
    (⟨'\t' :: m.1 ++ ' ' :: m.2.1 ++ m.2.2⟩, ⟨m.1⟩, ⟨m.2.1⟩)

/-! ## The test file scanner -/

/-- `testLine`: decoded end2end test file line (single instruction). -/
structure testLine where
  op : String
  args : List String
  text : String
deriving DecidableEq, Repr

instance : Inhabited testLine := ⟨{ op := "", args := [], text := "" }⟩

/-- Structured model of the error values `testFileScanner.scan` builds
with `fmt.Errorf`; each constructor carries exactly the data interpolated
into the corresponding message. -/
inductive scanErr where
  /-- `"%s: unexpected EOF (expected RET instruction)"` -/
  | unexpectedEOF (filename : String)
  /-- `"%s: unexpected %q line (does not match pattern)"` -/
  | unexpectedLine (filename : String) (line : String)
deriving DecidableEq, Repr

/-- `testFileScanner`: reads a Go asm end2end test file into `testLine`
objects.  The compiled `lineRE` field is the fixed pattern
`lineREFindSubmatch` and is not part of the state. -/
structure testFileScanner where
  filename : String
  lines : List String
  line : testLine
  err : Option scanErr
deriving DecidableEq, Repr

/-- The Go zero value `testFileScanner{filename: filename}`. -/
def mkScanner (filename : String) : testFileScanner :=
  { filename := filename, lines := [], line := default, err := none }

/-- Go `strings.Split` with a one-character separator: split the
character list at every occurrence of `sep`; the result always has at
least one (possibly empty) piece. -/
def splitOnChar (sep : Char) : List Char → List (List Char)
  | [] => [[]]
  | c :: rest =>
    if c = sep then [] :: splitOnChar sep rest
    else
      match splitOnChar sep rest with
      | l :: ls => (c :: l) :: ls
      | [] => [[c]]

/-- Go `strings.Split(data, "\n")`. -/
def splitLines (data : String) : List String :=
  (splitOnChar '\n' data.toList).map fun l => ⟨l⟩

/-- Go `unicode.IsSpace` restricted to the ASCII range (the only
characters that occur in the fixture format): space, tab, newline,
vertical tab, form feed, carriage return. -/
def isSpaceGo (c : Char) : Bool :=
  c = ' ' || c = '\t' || c = '\n' || c = (Char.ofNat 11) || c = (Char.ofNat 12) || c = '\r'

/-- Go `strings.TrimSpace`: remove leading and trailing whitespace. -/
def trimSpaceList (w : List Char) : List Char :=
  ((w.dropWhile isSpaceGo).reverse.dropWhile isSpaceGo).reverse

/-- The operand-list post-processing in `testFileScanner.scan`:
`strings.Split(m[2], ",")`, then `strings.TrimSpace` on every piece. -/
def splitCommaTrim (s : String) : List String :=
  (splitOnChar ',' s.toList).map fun w => ⟨trimSpaceList w⟩

/-- The loop condition of `testFileScanner.init` negated: the line is
nonempty and its first byte is the tab character. -/
def startsWithTab (l : String) : Bool :=
  match l.toList with
  | '\t' :: _ => true
  | _ => false

/-- The header-skipping loop of `testFileScanner.init`:
`for len(s.lines[0]) == 0 || s.lines[0][0] != '\t' { s.lines = s.lines[1:] }`.
Indexing `s.lines[0]` once the slice is empty is an out-of-range panic,
modelled as `none`. -/
def skipHeaderLines : List String → Option (List String)
  | [] => none
  | l :: rest => if startsWithTab l then some (l :: rest) else skipHeaderLines rest

/-- Outcome of `testFileScanner.init`. -/
inductive initOutcome where
  /-- `init` returned `nil` and left the scanner in this state. -/
  | ok (s : testFileScanner)
  /-- `ioutil.ReadFile` failed; `init` returns that error. -/
  | fileError (filename : String)
  /-- the header-skipping loop indexed an empty slice (runtime panic). -/
  | outOfBounds
deriving DecidableEq, Repr

/-- `testFileScanner.init`, over a file system modelled as
`fs : String → Option String` (`none` = unreadable file). -/
def testFileScanner.initGo (filename : String) (fs : String → Option String) :
    initOutcome :=
  match fs filename with
  | none => .fileError filename
  | some data =>
    match skipHeaderLines (splitLines data) with
    | none => .outOfBounds
    | some ls => .ok { mkScanner filename with lines := ls }

/-- `testFileScanner.scan`: one decoding step.  Returns the Go boolean
result together with the scanner state after the (pointer-receiver)
call. -/
def testFileScanner.scan (s : testFileScanner) : Bool × testFileScanner :=
  if s.err.isSome then (false, s)
  else
    match s.lines with
    | [] => (false, { s with err := some (.unexpectedEOF s.filename) })
    | l :: rest =>
      if l = "\tRET" then (false, s)
      else
        match lineREFindSubmatch l with
        | none => (false, { s with err := some (.unexpectedLine s.filename l) })
        | some (m0, m1, m2) =>
          (true, { s with
            lines := rest,
            line := { op := m1,
                      args := splitCommaTrim m2,
                      text := m0 } })

example : lineREFindSubmatch "\tVPADDD X1, X2, X3 // 62f16548fecb" =
    some ("\tVPADDD X1, X2, X3 // 62f16548fecb", "VPADDD", "X1, X2, X3") := by decide
example : lineREFindSubmatch "\tRET" = none := by decide
example : lineREFindSubmatch "not an instruction" = none := by decide

/-! ## The collector -/

/-- `iformStats`: parsed perf output for a particular instruction form
evaluation. -/
structure iformStats where
  ext : String
  iform : String
  level0 : Int
  level1 : Int
  level2 : Int
deriving DecidableEq, Repr

/-- Evaluation state valid only during a single extension evaluation
stage (`collector.current`). -/
structure collectorCurrent where
  extension : String
  scanner : testFileScanner
deriving DecidableEq, Repr

/-- The `collector` aggregate.  The two compiled operand regexes are the
fixed matchers `memArgMatch` / `vmemArgMatch` and are not part of the
state; `availableExt` is the membership function of the Go set. -/
structure collector where
  testDir : String
  availableExt : String → Bool
  stats : List iformStats
  current : collectorCurrent
  extensions : List String
  perfTool : String
  workDir : String
  iformSpanSize : Nat
  loopCount : Nat
  perfRounds : Nat

/-- `collector.evaluateCurrent`: the unimplemented stub
`return nil, nil`. -/
def collector.evaluateCurrent (_ : collector) :
    List iformStats × Option String :=
  ([], none)

/-- Structured model of the error values `collector.validateFlags`
builds. -/
inductive flagsError where
  /-- `"unavailable extension: %q"` -/
  | unavailableExtension (ext : String)
  /-- `"expected at least 1 extension name"` -/
  | noExtensions
  /-- `"argument -perf can't be empty"` -/
  | emptyPerfTool
  /-- `"argument -iformSpanSize can't be 0"` -/
  | zeroIformSpanSize
  /-- `"argument -loopCount can't be 0"` -/
  | zeroLoopCount
  /-- `"argument -perfRounds can't be 0"` -/
  | zeroPerfRounds
deriving DecidableEq, Repr

/-- `collector.validateFlags`: the loop over `c.extensions` reports the
first extension missing from `availableExt`; then the `switch` checks
each remaining condition in order. -/
def collector.validateFlags (c : collector) : Option flagsError :=
  match c.extensions.find? (fun ext => !c.availableExt ext) with
  | some ext => some (.unavailableExtension ext)
  | none =>
    if c.extensions.length = 0 then some .noExtensions
    else if c.perfTool = "" then some .emptyPerfTool
    else if c.iformSpanSize = 0 then some .zeroIformSpanSize
    else if c.loopCount = 0 then some .zeroLoopCount
    else if c.perfRounds = 0 then some .zeroPerfRounds
    else none

/-- Go `filepath.Join(dir, file)` for a nonempty clean `dir` and a
nonempty relative `file`. -/
def joinPath (dir file : String) : String := dir ++ "/" ++ file

/-- Structured model of the `log.Printf` calls in
`collector.collectCounters`. -/
inductive logEntry where
  /-- `"skip %s: can't scan test file: %v"` (the error is the failed
  read of `filename`). -/
  | skipScan (ext : String) (filename : String)
  /-- `"failed %s: %v"` -/
  | evalFailed (ext : String) (err : String)
deriving DecidableEq, Repr

/-- Outcome of `collector.collectCounters` (and of its loop): the final
collector, the log entries emitted, and the returned error — or a
runtime panic raised inside `testFileScanner.init`. -/
inductive collectOutcome where
  | done (c : collector) (log : List logEntry) (err : Option String)
  | panicked

/-- Prepend a log entry to the outcome of the rest of the loop. -/
def consLog (e : logEntry) : collectOutcome → collectOutcome
  | .done c log err => .done c (e :: log) err
  | .panicked => .panicked

/-- The assignments `c.current.extension = ext` /
`c.current.scanner = ...` at the top of the loop body. -/
def setCurrent (c : collector) (ext : String) (sc : testFileScanner) :
    collector :=
  { c with current := { extension := ext, scanner := sc } }

/-- The `for _, ext := range c.extensions` loop of
`collector.collectCounters`, threading the collector state. -/
def collectLoop (fs : String → Option String) (c : collector) :
    List String → collectOutcome
  | [] => .done c [] none
  | ext :: rest =>
    let filename := joinPath c.testDir (ext ++ ".s")
    match testFileScanner.initGo filename fs with
    | .fileError f =>
      consLog (.skipScan ext f)
        (collectLoop fs (setCurrent c ext (mkScanner filename)) rest)
    | .outOfBounds => .panicked
    | .ok sc =>
      let c1 := setCurrent c ext sc
      match c1.evaluateCurrent with
      | (_stats, some e) => consLog (.evalFailed ext e) (collectLoop fs c1 rest)
      | (stats, none) => collectLoop fs { c1 with stats := c1.stats ++ stats } rest

/-- `collector.collectCounters`. -/
def collector.collectCounters (c : collector) (fs : String → Option String) :
    collectOutcome :=
  collectLoop fs c c.extensions

/-- The tail of `main`'s step list after flag validation: `validateFlags`
runs before `prepareWorkDir` / `collectCounters`, and a step error is
fatal (`log.Fatalf`), so on a validation error `collectCounters` is never
reached. -/
def runValidatedSteps (c : collector) (fs : String → Option String) :
    Option flagsError × Option collectOutcome :=
  match c.validateFlags with
  | some e => (some e, none)
  | none => (none, some (c.collectCounters fs))

/-! ## The generated probe driver (`collector.prepareWorkDir`)

`prepareWorkDir` writes `main.go` with `fmt.Sprintf(template,
c.loopCount)`; the template is a Go raw string literal whose exact bytes
(newlines and tab indentation included) are reproduced below, split at
the single `%d` verb. -/

/-- The template text before the `%d` verb. -/
def mainFileTextA : String :=
  "\n\t\t// Code generated by avx512counters. DO NOT EDIT.\n\t\tpackage main\n\t\tfunc avx512routine(*[1024]byte)\n\t\tfunc main() \x7b\n\t\t\tvar memory [1024]byte\n\t\t\tfor i := 0; i < "

/-- The template text after the `%d` verb. -/
def mainFileTextB : String :=
  "; i++ \x7b\n\t\t\t\t// Fill memory argument with some values.\n\t\t\t\tfor i := range memory \x7b\n\t\t\t\t\tmemory[i] = byte(i)\n\t\t\t\t\x7d\n\t\t\t\tavx512routine(&memory)\n\t\t\t\x7d\n\t\t\x7d"

/-- The generated `main.go` contents: `fmt.Sprintf(template, loopCount)`
(`%d` on a `uint` prints its decimal digits). -/
def mainFileContents (loopCount : Nat) : String :=
  mainFileTextA ++ Nat.repr loopCount ++ mainFileTextB

/-- `collector.prepareWorkDir`, reduced to its pure content: the path and
the contents of the file it writes. -/
def collector.prepareWorkDir (c : collector) : String × String :=
  (joinPath c.workDir "main.go", mainFileContents c.loopCount)

/-! Semantics of the generated driver, translated from the emitted Go
text: `memory` is a 1024-byte buffer, zero-initialised; each of the
`loopCount` outer iterations rewrites `memory[i] = byte(i)` for every
position `i` and then calls `avx512routine(&memory)` once. -/

/-- Driver state: buffer contents (byte values) and number of calls to
`avx512routine` so far. -/
structure probeState where
  memory : List Nat
  invocations : Nat
deriving DecidableEq, Repr

/-- One iteration of the outer loop of the generated `main`. -/
def probeIter (st : probeState) : probeState :=
  { memory := (List.range 1024).map (fun i => i % 256),
    invocations := st.invocations + 1 }

/-- The generated `main`, run for `n` outer iterations. -/
def probeRun : Nat → probeState
  | 0 => { memory := List.replicate 1024 0, invocations := 0 }
  | n + 1 => probeIter (probeRun n)

/-! ## Helper lemmas about the header-skipping loop -/

lemma skipHeaderLines_of_all_not {ls : List String}
    (h : ∀ l ∈ ls, startsWithTab l = false) : skipHeaderLines ls = none := by
  induction ls with
  | nil => rfl
  | cons l rest ih =>
    have hl := h l (by simp)
    simp only [skipHeaderLines, hl, Bool.false_eq_true, if_false]
    exact ih fun x hx => h x (by simp [hx])

lemma skipHeaderLines_eq_dropWhile {ls : List String} {l : String}
    (hl : l ∈ ls) (htab : startsWithTab l = true) :
    skipHeaderLines ls = some (ls.dropWhile fun x => !startsWithTab x) := by
  induction ls with
  | nil => cases hl
  | cons x rest ih =>
    by_cases hx : startsWithTab x = true
    · simp [skipHeaderLines, List.dropWhile_cons, hx]
    · have hxr : l ∈ rest := by
        rcases List.mem_cons.mp hl with h | h
        · exact absurd (h ▸ htab) hx
        · exact h
      simp only [skipHeaderLines, hx, if_false,
        List.dropWhile_cons, Bool.not_eq_true', eq_self_iff_true]
      rw [ih hxr]
      simp [Bool.not_eq_true' .. |>.symm, hx]

lemma dropWhile_head_tab {ls res : List String} {l : String}
    (h : ls.dropWhile (fun x => !startsWithTab x) = l :: res) :
    startsWithTab l = true := by
  have := List.head?_dropWhile_not (fun x => !startsWithTab x) ls
  rw [h] at this
  simpa using this

/-- C6: for a readable fixture file whose content has at least one
tab-initial line, `testFileScanner.init` reads the whole file, splits it
into lines and discards exactly the leading lines that do not begin with
a tab, so that the first unprocessed line after `init` begins with a
tab. -/
theorem initGo_skips_header (filename data : String)
    (fs : String → Option String) (hread : fs filename = some data)
    (htab : ∃ l ∈ splitLines data, startsWithTab l = true) :
    testFileScanner.initGo filename fs =
      .ok { mkScanner filename with
              lines := (splitLines data).dropWhile fun x => !startsWithTab x } ∧
    ∀ l res, (splitLines data).dropWhile (fun x => !startsWithTab x) = l :: res →
      startsWithTab l = true := by
  obtain ⟨l, hl, htab⟩ := htab
  constructor
  · simp only [testFileScanner.initGo, hread, skipHeaderLines_eq_dropWhile hl htab]
  · exact fun _ _ h => dropWhile_head_tab h

/-- C6 witness. -/
theorem initGo_skips_header_witness :
    testFileScanner.initGo "f.s"
        (fun n => if n = "f.s" then some "header\n\tRET" else none) =
      .ok { mkScanner "f.s" with lines := ["\tRET"] } ∧
    ∀ l res, (splitLines "header\n\tRET").dropWhile (fun x => !startsWithTab x) = l :: res →
      startsWithTab l = true := by
  have h := initGo_skips_header "f.s" "header\n\tRET"
    (fun n => if n = "f.s" then some "header\n\tRET" else none)
    (by decide) (by decide)
  exact ⟨by rw [h.1]; decide, h.2⟩

/-- C10: if the fixture file is readable but no line of its content
begins with a tab character, `testFileScanner.init` runs its
header-skipping loop off the end of the line slice — an out-of-range
index (runtime panic) instead of an error return; `init` returns
normally only when a tab-initial line exists. -/
theorem initGo_out_of_bounds (filename data : String)
    (fs : String → Option String) (hread : fs filename = some data) :
    ((∀ l ∈ splitLines data, startsWithTab l = false) →
      testFileScanner.initGo filename fs = .outOfBounds) ∧
    ∀ st, testFileScanner.initGo filename fs = .ok st →
      ∃ l ∈ splitLines data, startsWithTab l = true := by
  constructor
  · intro h
    simp only [testFileScanner.initGo, hread, skipHeaderLines_of_all_not h]
  · intro st h
    by_contra hno
    push_neg at hno
    have hall : ∀ l ∈ splitLines data, startsWithTab l = false := by
      intro l hl
      exact Bool.eq_false_iff.mpr fun hc => (hno l hl) hc
    simp only [testFileScanner.initGo, hread, skipHeaderLines_of_all_not hall] at h
    exact initOutcome.noConfusion h

/-- C10 witness. -/
theorem initGo_out_of_bounds_witness :
    testFileScanner.initGo "g.s"
        (fun n => if n = "g.s" then some "just a header\nno tabs" else none) =
      .outOfBounds := by
  exact (initGo_out_of_bounds "g.s" "just a header\nno tabs" _ (by decide)).1 (by decide)

/-- C3: with no prior error, a scan step ends the sequence without
setting an error exactly when the current line is the sentinel `"\tRET"`;
if the unprocessed lines are exhausted first, scan stops and records an
unexpected-EOF error naming the file. -/
theorem scan_sentinel_and_eof (s : testFileScanner) (herr : s.err = none) :
    ((s.scan.1 = false ∧ s.scan.2.err = none) ↔ ∃ res, s.lines = "\tRET" :: res) ∧
    (s.lines = [] →
      s.scan = (false, { s with err := some (.unexpectedEOF s.filename) })) := by
  constructor
  · cases hl : s.lines with
    | nil =>
      simp only [testFileScanner.scan, herr, Option.isSome_none, Bool.false_eq_true,
        if_false, hl]
      simp
    | cons l res =>
      by_cases hret : l = "\tRET"
      · subst hret
        simp only [testFileScanner.scan, herr, Option.isSome_none, Bool.false_eq_true,
          if_false, hl, if_pos rfl]
        simp [herr]
      · cases hm : lineREFindSubmatch l with
        | none =>
          simp only [testFileScanner.scan, herr, Option.isSome_none, Bool.false_eq_true,
            if_false, hl, if_neg hret, hm]
          simp [hret]
        | some m =>
          obtain ⟨m0, m1, m2⟩ := m
          simp only [testFileScanner.scan, herr, Option.isSome_none, Bool.false_eq_true,
            if_false, hl, if_neg hret, hm]
          simp [hret]
  · intro hl
    simp only [testFileScanner.scan, herr, Option.isSome_none, Bool.false_eq_true,
      if_false, hl]

/-- C3 witness. -/
theorem scan_sentinel_and_eof_witness :
    (({ mkScanner "w.s" with lines := ["\tRET"] } : testFileScanner).scan.1 = false ∧
      ({ mkScanner "w.s" with lines := ["\tRET"] } : testFileScanner).scan.2.err = none) ∧
    ({ mkScanner "w.s" with lines := [] } : testFileScanner).scan =
      (false, { mkScanner "w.s" with err := some (.unexpectedEOF "w.s") }) := by
  refine ⟨(scan_sentinel_and_eof _ rfl).1.mpr ⟨[], rfl⟩, ?_⟩
  exact (scan_sentinel_and_eof { mkScanner "w.s" with lines := [] } rfl).2 rfl

/-- C4: with no prior error, when the current line is neither the
sentinel nor matched by the fixture line pattern, scan stops with a parse
error carrying both the file name and the offending line text. -/
theorem scan_parse_error (s : testFileScanner) (l : String) (res : List String)
    (herr : s.err = none) (hl : s.lines = l :: res) (hret : l ≠ "\tRET")
    (hm : lineREFindSubmatch l = none) :
    s.scan = (false, { s with err := some (.unexpectedLine s.filename l) }) := by
  simp only [testFileScanner.scan, herr, Option.isSome_none, Bool.false_eq_true,
    if_false, hl, if_neg hret, hm]

/-! ## Soundness of the `lineRE` matcher

The lemmas below recover, from a successful match, the decomposition of
the line the pattern semantics dictates: the match starts at the first
tab of the line, the first group stops at the first space after it, and
the comment tail is ` // ` followed by a nonempty hex run.  (The
minimality facts need the line to be newline-free, which holds for every
line produced by splitting a file on newlines.) -/

lemma commentAt_sound {cs t : List Char} (h : commentAt cs = some t) :
    ∃ hex res, cs = ' ' :: '/' :: '/' :: ' ' :: (hex ++ res) ∧
      t = ' ' :: '/' :: '/' :: ' ' :: hex ∧ hex ≠ [] ∧ ∀ c ∈ hex, isHexLower c := by
  unfold commentAt at h
  split at h
  · next rest0 =>
    split at h
    · exact absurd h (by simp)
    · next hne =>
      injection h with h
      refine ⟨rest0.takeWhile isHexLower, rest0.dropWhile isHexLower, ?_, h.symm, ?_, ?_⟩
      · rw [List.takeWhile_append_dropWhile]
      · simpa [List.isEmpty_iff] using hne
      · exact fun c hc => List.mem_takeWhile_imp hc
  · exact absurd h (by simp)

lemma matchArgsComment_of_commentAt {cs t : List Char}
    (h : commentAt cs = some t) : matchArgsComment cs = some ([], t) := by
  match cs with
  | [] => exact absurd h (by simp [commentAt])
  | c :: rest => rw [matchArgsComment, h]

lemma matchArgsComment_isSome_append {a s0 : List Char}
    (ha : ∀ c ∈ a, c ≠ '\n') (hs : (matchArgsComment s0).isSome) :
    (matchArgsComment (a ++ s0)).isSome := by
  induction a with
  | nil => simpa using hs
  | cons c a' ih =>
    have hc : c ≠ '\n' := ha c (by simp)
    have ih' := ih fun x hx => ha x (by simp [hx])
    rw [List.cons_append, matchArgsComment]
    cases hca : commentAt (c :: (a' ++ s0)) with
    | some t => simp
    | none =>
      rw [if_neg hc]
      obtain ⟨p, hp⟩ := Option.isSome_iff_exists.mp ih'
      rw [hp]
      simp

lemma matchOpArgs_isSome_append {a s0 : List Char}
    (ha : ∀ c ∈ a, c ≠ '\n') (hs : (matchOpArgs s0).isSome) :
    (matchOpArgs (a ++ s0)).isSome := by
  induction a with
  | nil => simpa using hs
  | cons c a' ih =>
    have hc : c ≠ '\n' := ha c (by simp)
    have ih' := ih fun x hx => ha x (by simp [hx])
    rw [List.cons_append, matchOpArgs]
    cases hca : (if c = ' ' then matchArgsComment (a' ++ s0) else none) with
    | some p => simp
    | none =>
      rw [if_neg hc]
      obtain ⟨p, hp⟩ := Option.isSome_iff_exists.mp ih'
      rw [hp]
      simp

lemma matchArgsComment_sound {cs g2 t : List Char}
    (h : matchArgsComment cs = some (g2, t)) :
    ∃ res, cs = g2 ++ (t ++ res) ∧ (∀ c ∈ g2, c ≠ '\n') ∧
      commentAt (t ++ res) = some t := by
  induction cs generalizing g2 with
  | nil => exact absurd h (by simp [matchArgsComment])
  | cons c rest ih =>
    rw [matchArgsComment] at h
    cases hca : commentAt (c :: rest) with
    | some t0 =>
      rw [hca] at h
      injection h with h
      injection h with hg ht
      subst hg
      rw [ht] at hca
      obtain ⟨hex, res, hcs, ht0, _, _⟩ := commentAt_sound hca
      refine ⟨res, ?_, by simp, ?_⟩
      · rw [List.nil_append, ht0, hcs]; simp
      · have htr : t ++ res = c :: rest := by rw [ht0, hcs]; simp
        rw [htr, hca]
    | none =>
      rw [hca] at h
      by_cases hc : c = '\n'
      · rw [if_pos hc] at h; exact absurd h (by simp)
      · rw [if_neg hc] at h
        obtain ⟨⟨g2', t'⟩, hrec, hf⟩ := Option.map_eq_some'.mp h
        injection hf with hg ht'
        subst ht'
        obtain ⟨res, hcs, hnl', hcomm⟩ := ih hrec
        subst hg
        refine ⟨res, by rw [List.cons_append, hcs], ?_, hcomm⟩
        intro x hx
        rcases List.mem_cons.mp hx with hx | hx
        · exact hx ▸ hc
        · exact hnl' x hx

lemma matchOpArgs_sound {cs g1 g2 t : List Char}
    (hnl : ∀ c ∈ cs, c ≠ '\n') (h : matchOpArgs cs = some (g1, g2, t)) :
    ∃ suf, cs = g1 ++ ' ' :: suf ∧ matchArgsComment suf = some (g2, t) ∧
      ' ' ∉ g1 := by
  induction cs generalizing g1 with
  | nil => exact absurd h (by simp [matchOpArgs])
  | cons c rest ih =>
    have hnl' : ∀ x ∈ rest, x ≠ '\n' := fun x hx => hnl x (by simp [hx])
    rw [matchOpArgs] at h
    by_cases hc : c = ' '
    · subst hc
      rw [if_pos rfl] at h
      cases hca : matchArgsComment rest with
      | some p =>
        rw [hca] at h
        injection h with h
        injection h with hg hp
        subst hg
        have hp2 : p = (g2, t) := by
          obtain ⟨pa, pb⟩ := p
          simpa using hp
        rw [hp2] at hca
        exact ⟨rest, by simp, hca, by simp⟩
      | none =>
        rw [hca] at h
        have hcn : (' ' : Char) ≠ '\n' := by decide
        rw [if_neg hcn] at h
        obtain ⟨⟨g1', g2', t'⟩, hrec, hf⟩ := Option.map_eq_some'.mp h
        injection hf with hg hf
        obtain ⟨suf, hsplit, hcomm, _⟩ := ih hnl' (hf ▸ hrec)
        -- the consumed space contradicts the failed comment match:
        -- rest = g1' ++ ' ' :: suf with a matching comment inside
        have hsome : (matchArgsComment rest).isSome := by
          rw [hsplit, show g1' ++ ' ' :: suf = (g1' ++ [' ']) ++ suf by simp]
          refine matchArgsComment_isSome_append ?_ (by rw [hcomm]; rfl)
          intro x hx
          rcases List.mem_append.mp hx with hx | hx
          · refine hnl' x ?_
            rw [hsplit]
            exact List.mem_append.mpr (Or.inl hx)
          · simp at hx
            exact hx ▸ by decide
        rw [hca] at hsome
        exact absurd hsome (by simp)
    · rw [if_neg hc] at h
      by_cases hcn : c = '\n'
      · exact absurd hcn (hnl c (by simp))
      · rw [if_neg hcn] at h
        obtain ⟨⟨g1', g2', t'⟩, hrec, hf⟩ := Option.map_eq_some'.mp h
        injection hf with hg hf
        obtain ⟨suf, hsplit, hcomm, hsp⟩ := ih hnl' (hf ▸ hrec)
        subst hg
        refine ⟨suf, by rw [List.cons_append, hsplit], hcomm, ?_⟩
        intro hx
        rcases List.mem_cons.mp hx with hx | hx
        · exact hc hx.symm
        · exact hsp hx

lemma findLineMatch_sound {cs : List Char} {m : List Char × List Char × List Char}
    (hnl : ∀ c ∈ cs, c ≠ '\n') (h : findLineMatch cs = some m) :
    ∃ pre suf, cs = pre ++ '\t' :: suf ∧ matchOpArgs suf = some m ∧
      '\t' ∉ pre := by
  induction cs with
  | nil => exact absurd h (by simp [findLineMatch])
  | cons c rest ih =>
    have hnl' : ∀ x ∈ rest, x ≠ '\n' := fun x hx => hnl x (by simp [hx])
    rw [findLineMatch] at h
    by_cases hc : c = '\t'
    · subst hc
      rw [if_pos rfl] at h
      cases hop : matchOpArgs rest with
      | some m' =>
        rw [hop] at h
        injection h with h
        exact ⟨[], rest, by simp, h ▸ hop, by simp⟩
      | none =>
        rw [hop] at h
        obtain ⟨pre', suf, hsplit, hm, _⟩ := ih hnl' h
        have hsome : (matchOpArgs rest).isSome := by
          rw [hsplit, show pre' ++ '\t' :: suf = (pre' ++ ['\t']) ++ suf by simp]
          refine matchOpArgs_isSome_append ?_ (by rw [hm]; rfl)
          intro x hx
          rcases List.mem_append.mp hx with hx | hx
          · refine hnl' x ?_
            rw [hsplit]
            exact List.mem_append.mpr (Or.inl hx)
          · simp at hx
            exact hx ▸ by decide
        rw [hop] at hsome
        exact absurd hsome (by simp)
    · rw [if_neg hc] at h
      obtain ⟨pre', suf, hsplit, hm, hpre⟩ := ih hnl' h
      refine ⟨c :: pre', suf, by rw [List.cons_append, hsplit], hm, ?_⟩
      intro hx
      rcases List.mem_cons.mp hx with hx | hx
      · exact hc hx.symm
      · exact hpre hx

/-- C5: when the current line matches the fixture line pattern, scan
succeeds, consumes exactly that line, and yields a record whose opcode is
the first captured group (the text between the line's leading tab and
the first space after it), whose operand list is the second captured
group split on commas with each piece trimmed, and whose text is the
matched text. -/
theorem scan_success (s : testFileScanner) (l : String) (res : List String)
    (m0 m1 m2 : String)
    (herr : s.err = none) (hl : s.lines = l :: res) (hret : l ≠ "\tRET")
    (hm : lineREFindSubmatch l = some (m0, m1, m2))
    (hnl : ∀ c ∈ l.toList, c ≠ '\n') :
    s.scan = (true,
      { s with
          lines := res,
          line := { op := m1,
                    args := splitCommaTrim m2,
                    text := m0 } }) ∧
    ∃ pre t' trailing hex,
      l.toList = pre ++ '\t' :: (m1.toList ++ ' ' :: (m2.toList ++ (t' ++ trailing))) ∧
      m0.toList = '\t' :: (m1.toList ++ ' ' :: (m2.toList ++ t')) ∧
      t' = ' ' :: '/' :: '/' :: ' ' :: hex ∧ hex ≠ [] ∧
      (∀ c ∈ hex, isHexLower c) ∧ '\t' ∉ pre ∧ ' ' ∉ m1.toList := by
  constructor
  · simp only [testFileScanner.scan, herr, Option.isSome_none, Bool.false_eq_true,
      if_false, hl, if_neg hret, hm]
  · unfold lineREFindSubmatch at hm
    obtain ⟨⟨g1, g2, t⟩, hfind, hf⟩ := Option.map_eq_some'.mp hm
    injection hf with h0 hf
    injection hf with h1 h2
    obtain ⟨pre, suf, hsplit, hop, hpre⟩ := findLineMatch_sound hnl hfind
    have hnlsuf : ∀ c ∈ suf, c ≠ '\n' := by
      intro x hx
      refine hnl x ?_
      rw [hsplit]
      simp [hx]
    obtain ⟨suf2, hsplit2, hcomm, hsp⟩ := matchOpArgs_sound hnlsuf hop
    obtain ⟨trailing, hsplit3, _, hcommat⟩ := matchArgsComment_sound hcomm
    obtain ⟨hex, res2, hdec, ht, hne, hhex⟩ := commentAt_sound hcommat
    have hm1 : m1.toList = g1 := by rw [← h1]; rfl
    have hm2 : m2.toList = g2 := by rw [← h2]; rfl
    have hm0 : m0.toList = '\t' :: g1 ++ ' ' :: g2 ++ t := by rw [← h0]; rfl
    refine ⟨pre, t, trailing, hex, ?_, ?_, ht, hne, hhex, hpre, ?_⟩
    · rw [hsplit, hsplit2, hsplit3, hm1, hm2]
    · rw [hm0, hm1, hm2]
      simp
    · rw [hm1]
      exact hsp

/-- C5 witness. -/
theorem scan_success_witness :
    ({ mkScanner "w.s" with lines := ["\tVPADDD X1, X2, X3 // 62f16548fecb"] }
        : testFileScanner).scan = (true,
      { mkScanner "w.s" with
          lines := []
          line := { op := "VPADDD",
                    args := ["X1", "X2", "X3"],
                    text := "\tVPADDD X1, X2, X3 // 62f16548fecb" } }) ∧
    ∃ pre t' trailing hex,
      ("\tVPADDD X1, X2, X3 // 62f16548fecb").toList =
        pre ++ '\t' :: (("VPADDD").toList ++ ' ' ::
          (("X1, X2, X3").toList ++ (t' ++ trailing))) ∧
      ("\tVPADDD X1, X2, X3 // 62f16548fecb").toList =
        '\t' :: (("VPADDD").toList ++ ' ' :: (("X1, X2, X3").toList ++ t')) ∧
      t' = ' ' :: '/' :: '/' :: ' ' :: hex ∧ hex ≠ [] ∧
      (∀ c ∈ hex, isHexLower c) ∧ '\t' ∉ pre ∧ ' ' ∉ ("VPADDD").toList := by
  have h := scan_success
    { mkScanner "w.s" with lines := ["\tVPADDD X1, X2, X3 // 62f16548fecb"] }
    "\tVPADDD X1, X2, X3 // 62f16548fecb" []
    "\tVPADDD X1, X2, X3 // 62f16548fecb" "VPADDD" "X1, X2, X3"
    rfl rfl (by decide) (by decide) (by decide)
  refine ⟨?_, h.2⟩
  rw [h.1]
  have hargs : splitCommaTrim "X1, X2, X3" = ["X1", "X2", "X3"] := by decide
  rw [hargs]

/-! ## Collector loop invariants -/

lemma collectLoop_done_inv (fs : String → Option String) :
    ∀ (exts : List String) (c c' : collector) (log : List logEntry)
      (err : Option String),
      collectLoop fs c exts = .done c' log err → c'.stats = c.stats ∧ err = none := by
  intro exts
  induction exts with
  | nil =>
    intro c c' log err h
    rw [collectLoop] at h
    injection h with h1 h2 h3
    exact ⟨h1 ▸ rfl, h3.symm⟩
  | cons ext rest ih =>
    intro c c' log err h
    simp only [collectLoop] at h
    cases hinit : testFileScanner.initGo (joinPath c.testDir (ext ++ ".s")) fs with
    | fileError f =>
      simp only [hinit] at h
      cases hrec : collectLoop fs
          (setCurrent c ext (mkScanner (joinPath c.testDir (ext ++ ".s")))) rest with
      | done c2 log2 err2 =>
        rw [hrec] at h
        simp only [consLog] at h
        injection h with h1 h2 h3
        obtain ⟨hs, he⟩ := ih _ c2 log2 err2 hrec
        exact ⟨h1 ▸ hs, h3 ▸ he⟩
      | panicked =>
        rw [hrec] at h
        simp only [consLog] at h
        exact collectOutcome.noConfusion h
    | outOfBounds =>
      simp only [hinit] at h
      exact collectOutcome.noConfusion h
    | ok sc =>
      simp only [hinit, collector.evaluateCurrent, List.append_nil] at h
      obtain ⟨hs, he⟩ := ih _ c' log err h
      exact ⟨hs, he⟩

/-- C1: `evaluateCurrent` is an unimplemented stub returning an empty
statistics list and no error; consequently a completed `collectCounters`
leaves the accumulated stats list exactly as it found it — empty for a
fresh collector, whatever the configuration and fixture set. -/
theorem evaluateCurrent_stub_stats_empty (c : collector)
    (fs : String → Option String) (c' : collector) (log : List logEntry)
    (err : Option String) (h : c.collectCounters fs = .done c' log err) :
    c.evaluateCurrent = ([], none) ∧ c'.stats = c.stats ∧ err = none ∧
    (c.stats = [] → c'.stats = []) := by
  obtain ⟨h1, h2⟩ := collectLoop_done_inv fs c.extensions c c' log err h
  exact ⟨rfl, h1, h2, fun he => h1.trans he⟩

/-- A concrete collector configuration used by the witnesses. -/
def collectorEx : collector :=
  { testDir := "td",
    availableExt := fun _ => true,
    stats := [],
    current := { extension := "", scanner := mkScanner "" },
    extensions := ["a"],
    perfTool := "perf",
    workDir := "wd",
    iformSpanSize := 100,
    loopCount := 1,
    perfRounds := 1 }

/-- `collectorEx` after its single extension was visited (and skipped:
the witness file system has no readable files). -/
def collectorExAfter : collector :=
  setCurrent collectorEx "a" (mkScanner "td/a.s")

/-- C1 witness. -/
theorem evaluateCurrent_stub_stats_empty_witness :
    collectorEx.evaluateCurrent = ([], none) ∧
    collectorExAfter.stats = collectorEx.stats ∧
    (none : Option String) = none ∧
    (collectorEx.stats = [] → collectorExAfter.stats = []) := by
  exact evaluateCurrent_stub_stats_empty collectorEx (fun _ => none)
    collectorExAfter [.skipScan "a" "td/a.s"] none rfl

/-- C7: a failure to initialize the scanner for one extension is logged
(with the extension and the failing file) and only that extension is
skipped: the loop goes on to process exactly the remaining extensions,
and a completed `collectCounters` returns `nil` rather than an error. -/
theorem collectCounters_skip_failed (fs : String → Option String)
    (c : collector) (ext : String) (rest : List String)
    (hfail : fs (joinPath c.testDir (ext ++ ".s")) = none) :
    collectLoop fs c (ext :: rest) =
      consLog (.skipScan ext (joinPath c.testDir (ext ++ ".s")))
        (collectLoop fs
          (setCurrent c ext (mkScanner (joinPath c.testDir (ext ++ ".s"))))
          rest) ∧
    ∀ c' log err, collectLoop fs c (ext :: rest) = .done c' log err →
      err = none := by
  constructor
  · simp only [collectLoop, testFileScanner.initGo, hfail]
  · intro c' log err h
    exact (collectLoop_done_inv fs (ext :: rest) c c' log err h).2

/-- C7 witness. -/
theorem collectCounters_skip_failed_witness :
    collectLoop (fun _ => none) collectorEx ["a", "b"] =
      consLog (.skipScan "a" "td/a.s")
        (collectLoop (fun _ => none)
          (setCurrent collectorEx "a" (mkScanner "td/a.s"))
          ["b"]) ∧
    ∀ c' log err, collectLoop (fun _ => none) collectorEx ["a", "b"] =
      .done c' log err → err = none := by
  exact collectCounters_skip_failed (fun _ => none) collectorEx "a" ["b"] rfl

/-- C8: flag validation fails exactly when some requested extension has
no fixture file, or no extension is requested, or the perf tool name is
empty, or one of `iformSpanSize`, `loopCount`, `perfRounds` is zero; and
a validation error is fatal before `collectCounters` is ever reached. -/
theorem validateFlags_exact (c : collector) (fs : String → Option String) :
    (c.validateFlags = none ↔
      (∀ ext ∈ c.extensions, c.availableExt ext = true) ∧
      c.extensions ≠ [] ∧ c.perfTool ≠ "" ∧ c.iformSpanSize ≠ 0 ∧
      c.loopCount ≠ 0 ∧ c.perfRounds ≠ 0) ∧
    (∀ e, c.validateFlags = some e →
      runValidatedSteps c fs = (some e, none)) := by
  constructor
  · unfold collector.validateFlags
    cases hfind : c.extensions.find? (fun ext => !c.availableExt ext) with
    | some ext =>
      simp only [hfind]
      constructor
      · intro h
        exact absurd h (by simp)
      · rintro ⟨h1, -⟩
        have hmem := List.mem_of_find?_eq_some hfind
        have hp := List.find?_some hfind
        rw [h1 ext hmem] at hp
        exact absurd hp (by simp)
    | none =>
      have hall : ∀ ext ∈ c.extensions, c.availableExt ext = true := by
        intro x hx
        have := List.find?_eq_none.mp hfind x hx
        simpa using this
      simp only [hfind]
      constructor
      · intro h
        by_cases h1 : c.extensions.length = 0
        · rw [if_pos h1] at h; exact absurd h (by simp)
        rw [if_neg h1] at h
        by_cases h2 : c.perfTool = ""
        · rw [if_pos h2] at h; exact absurd h (by simp)
        rw [if_neg h2] at h
        by_cases h3 : c.iformSpanSize = 0
        · rw [if_pos h3] at h; exact absurd h (by simp)
        rw [if_neg h3] at h
        by_cases h4 : c.loopCount = 0
        · rw [if_pos h4] at h; exact absurd h (by simp)
        rw [if_neg h4] at h
        by_cases h5 : c.perfRounds = 0
        · rw [if_pos h5] at h; exact absurd h (by simp)
        exact ⟨hall, by simpa [← List.length_eq_zero] using h1, h2, h3, h4, h5⟩
      · rintro ⟨-, h1, h2, h3, h4, h5⟩
        rw [if_neg (by simpa [List.length_eq_zero] using h1), if_neg h2,
          if_neg h3, if_neg h4, if_neg h5]
  · intro e he
    unfold runValidatedSteps
    rw [he]

/-- A collector configuration rejected by `validateFlags`: its one
requested extension has no fixture file. -/
def collectorBad : collector := { collectorEx with availableExt := fun _ => false }

/-- C8 witness. -/
theorem validateFlags_exact_witness :
    (collectorBad.validateFlags = none ↔
      (∀ ext ∈ collectorBad.extensions, collectorBad.availableExt ext = true) ∧
      collectorBad.extensions ≠ [] ∧ collectorBad.perfTool ≠ "" ∧
      collectorBad.iformSpanSize ≠ 0 ∧ collectorBad.loopCount ≠ 0 ∧
      collectorBad.perfRounds ≠ 0) ∧
    runValidatedSteps collectorBad (fun _ => none) =
      (some (.unavailableExtension "a"), none) := by
  exact ⟨(validateFlags_exact collectorBad (fun _ => none)).1,
    (validateFlags_exact collectorBad (fun _ => none)).2
      (.unavailableExtension "a") rfl⟩

/-- C9: the synthesized probe driver source declares a fixed-size
1024-byte buffer and a driver loop whose emitted bound is exactly the
configured `loopCount`; its semantics rewrites every byte of the buffer
with `byte(i)` by position and invokes the external routine exactly once
per iteration. -/
theorem probe_driver_shape (n : Nat) (h : 0 < n) :
    (∃ pre post, mainFileContents n =
      pre ++ ("var memory [1024]byte\n\t\t\tfor i := 0; i < " ++
        (Nat.repr n ++ ("; i++ \x7b" ++ post)))) ∧
    (probeRun n).invocations = n ∧
    (probeRun n).memory.length = 1024 ∧
    ∀ i, i < 1024 → (probeRun n).memory.get? i = some (i % 256) := by
  refine ⟨?_, ?_, ?_, ?_⟩
  · refine ⟨"\n\t\t// Code generated by avx512counters. DO NOT EDIT.\n\t\tpackage main\n\t\tfunc avx512routine(*[1024]byte)\n\t\tfunc main() \x7b\n\t\t\t",
      "\n\t\t\t\t// Fill memory argument with some values.\n\t\t\t\tfor i := range memory \x7b\n\t\t\t\t\tmemory[i] = byte(i)\n\t\t\t\t\x7d\n\t\t\t\tavx512routine(&memory)\n\t\t\t\x7d\n\t\t\x7d", ?_⟩
    unfold mainFileContents mainFileTextA mainFileTextB
    apply String.ext
    simp only [String.data_append]
    simp
  · clear h
    induction n with
    | zero => rfl
    | succ m ih => simp only [probeRun, probeIter, ih]
  · obtain ⟨m, rfl⟩ := Nat.exists_eq_succ_of_ne_zero h.ne'
    have hmem : (probeRun (m + 1)).memory = (List.range 1024).map fun i => i % 256 := by
      simp [probeRun, probeIter]
    rw [hmem, List.length_map, List.length_range]
  · obtain ⟨m, rfl⟩ := Nat.exists_eq_succ_of_ne_zero h.ne'
    intro i hi
    have hmem : (probeRun (m + 1)).memory = (List.range 1024).map fun i => i % 256 := by
      simp [probeRun, probeIter]
    rw [hmem, List.get?_eq_getElem?, List.getElem?_map, List.getElem?_range hi]
    rfl

/-- C9 witness. -/
theorem probe_driver_shape_witness :
    0 < 3 ∧
    ((∃ pre post, mainFileContents 3 =
      pre ++ ("var memory [1024]byte\n\t\t\tfor i := 0; i < " ++
        (Nat.repr 3 ++ ("; i++ \x7b" ++ post)))) ∧
    (probeRun 3).invocations = 3 ∧
    (probeRun 3).memory.length = 1024 ∧
    ∀ i, i < 1024 → (probeRun 3).memory.get? i = some (i % 256)) :=
  ⟨by decide, probe_driver_shape 3 (by decide)⟩

/-- C4 witness. -/
theorem scan_parse_error_witness :
    ({ mkScanner "w.s" with lines := ["#garbage"] } : testFileScanner).scan =
      (false,
        { mkScanner "w.s" with
            lines := ["#garbage"]
            err := some (.unexpectedLine "w.s" "#garbage") }) := by
  exact scan_parse_error _ "#garbage" [] rfl rfl (by decide) (by decide)

/-! ## The operand matchers meet the specification grammar -/

lemma takeWhile_all_append {p : Char → Bool} {xs ys : List Char}
    (h : ∀ x ∈ xs, p x = true) :
    (xs ++ ys).takeWhile p = xs ++ ys.takeWhile p := by
  induction xs with
  | nil => simp
  | cons x xs ih =>
    have hx := h x (by simp)
    simp [List.takeWhile_cons, hx, ih fun y hy => h y (by simp [hy])]

lemma dropWhile_all_append {p : Char → Bool} {xs ys : List Char}
    (h : ∀ x ∈ xs, p x = true) :
    (xs ++ ys).dropWhile p = ys.dropWhile p := by
  induction xs with
  | nil => simp
  | cons x xs ih =>
    have hx := h x (by simp)
    simp [List.dropWhile_cons, hx, ih fun y hy => h y (by simp [hy])]

lemma dropDisp_complete {d rest : List Char} (hd : DispOk d) :
    dropDisp (d ++ '(' :: rest) = some ('(' :: rest) := by
  have hpar : Char.isDigit '(' = false := by decide
  have hparm : ('(' : Char) ≠ '-' := by decide
  rcases hd with rfl | ⟨hne, hdig⟩ | ⟨ds, rfl, hne, hdig⟩
  · rw [List.nil_append, dropDisp, if_neg hparm, List.dropWhile_cons, hpar]
    simp
  · cases d with
    | nil => exact absurd rfl hne
    | cons c cs =>
      have hc : Char.isDigit c = true := hdig c (by simp)
      have hcm : c ≠ '-' := by
        intro h
        rw [h] at hc
        exact absurd hc (by decide)
      rw [List.cons_append, dropDisp, if_neg hcm, List.dropWhile_cons, hc]
      rw [if_pos rfl,
        dropWhile_all_append fun y hy => hdig y (by simp [hy]),
        List.dropWhile_cons, hpar]
      simp
  · rw [List.cons_append, dropDisp, if_pos rfl,
      takeWhile_all_append fun y hy => hdig y hy,
      List.takeWhile_cons, hpar]
    simp only [Bool.false_eq_true, if_false, List.append_nil]
    rw [if_neg (by simpa [List.isEmpty_iff] using hne),
      dropWhile_all_append fun y hy => hdig y hy,
      List.dropWhile_cons, hpar]
    simp

lemma dropDisp_sound {cs cs' : List Char} (h : dropDisp cs = some cs') :
    ∃ d, DispOk d ∧ cs = d ++ cs' := by
  cases cs with
  | nil =>
    rw [dropDisp] at h
    injection h with h
    exact ⟨[], Or.inl rfl, by rw [← h]; rfl⟩
  | cons c rest =>
    rw [dropDisp] at h
    by_cases hc : c = '-'
    · rw [if_pos hc] at h
      by_cases hemp : (rest.takeWhile Char.isDigit).isEmpty
      · rw [if_pos hemp] at h
        exact absurd h (by simp)
      · rw [if_neg hemp] at h
        injection h with h
        refine ⟨'-' :: rest.takeWhile Char.isDigit,
          Or.inr (Or.inr ⟨rest.takeWhile Char.isDigit, rfl,
            by simpa [List.isEmpty_iff] using hemp,
            fun x hx => List.mem_takeWhile_imp hx⟩), ?_⟩
        rw [List.cons_append, hc, ← h, List.takeWhile_append_dropWhile]
    · rw [if_neg hc] at h
      injection h with h
      cases hdig : Char.isDigit c with
      | true =>
        refine ⟨(c :: rest).takeWhile Char.isDigit,
          Or.inr (Or.inl ⟨?_, fun x hx => List.mem_takeWhile_imp hx⟩), ?_⟩
        · rw [List.takeWhile_cons, hdig]
          simp
        · rw [← h, List.takeWhile_append_dropWhile]
      | false =>
        refine ⟨[], Or.inl rfl, ?_⟩
        rw [List.nil_append, ← h, List.dropWhile_cons, hdig]
        simp

lemma parseParenWord_complete {b rest : List Char} (hb : Word1 b) :
    parseParenWord ('(' :: (b ++ ')' :: rest)) = some rest := by
  obtain ⟨hne, hw⟩ := hb
  have hrp : isWordChar ')' = false := by decide
  rw [parseParenWord, if_pos rfl,
    takeWhile_all_append hw, List.takeWhile_cons, hrp]
  simp only [Bool.false_eq_true, if_false, List.append_nil]
  rw [if_neg (by simpa [List.isEmpty_iff] using hne),
    dropWhile_all_append hw, List.dropWhile_cons, hrp]
  simp

lemma parseParenWord_sound {cs rest : List Char}
    (h : parseParenWord cs = some rest) :
    ∃ b, Word1 b ∧ cs = '(' :: (b ++ ')' :: rest) := by
  cases cs with
  | nil => exact absurd h (by simp [parseParenWord])
  | cons c rest0 =>
    rw [parseParenWord] at h
    by_cases hc : c = '('
    · rw [if_pos hc] at h
      by_cases hemp : (rest0.takeWhile isWordChar).isEmpty
      · rw [if_pos hemp] at h
        exact absurd h (by simp)
      · rw [if_neg hemp] at h
        cases hdw : rest0.dropWhile isWordChar with
        | nil =>
          simp only [hdw] at h
          exact absurd h (by simp)
        | cons c' rest' =>
          simp only [hdw] at h
          by_cases hc' : c' = ')'
          · rw [if_pos hc'] at h
            injection h with h
            refine ⟨rest0.takeWhile isWordChar,
              ⟨by simpa [List.isEmpty_iff] using hemp,
                fun x hx => List.mem_takeWhile_imp hx⟩, ?_⟩
            have hrest : rest0 = rest0.takeWhile isWordChar ++ ')' :: rest := by
              rw [← h, ← hc', ← hdw, List.takeWhile_append_dropWhile]
            rw [hc]
            conv_lhs => rw [hrest]
          · rw [if_neg hc'] at h
            exact absurd h (by simp)
    · rw [if_neg hc] at h
      exact absurd h (by simp)

lemma starScaleClose_iff {cs : List Char} :
    starScaleClose cs = true ↔
      ∃ sc, isScaleChar sc = true ∧ cs = ['*', sc, ')'] := by
  constructor
  · intro h
    match cs, h with
    | [c1, sc, c2], h =>
      rw [starScaleClose] at h
      by_cases hcc : c1 = '*' ∧ c2 = ')'
      · rw [if_pos hcc] at h
        exact ⟨sc, h, by rw [hcc.1, hcc.2]⟩
      · rw [if_neg hcc] at h
        exact absurd h (by simp)
  · rintro ⟨sc, hsc, rfl⟩
    rw [starScaleClose, if_pos ⟨rfl, rfl⟩]
    exact hsc

lemma matchIndexPart_iff {i : List Char} :
    matchIndexPart i = true ↔ IndexOk i := by
  constructor
  · intro h
    cases i with
    | nil => exact absurd h (by simp [matchIndexPart])
    | cons c rest =>
      rw [matchIndexPart] at h
      by_cases hc : c = '('
      · rw [if_pos hc] at h
        obtain ⟨hne, hclose⟩ := Bool.and_eq_true_iff.mp h
        obtain ⟨sc, hsc, hdw⟩ := starScaleClose_iff.mp hclose
        refine ⟨rest.takeWhile isWordChar, sc,
          ⟨by simpa [List.isEmpty_iff] using hne,
            fun x hx => List.mem_takeWhile_imp hx⟩, hsc, ?_⟩
        have hrest : rest = rest.takeWhile isWordChar ++ ['*', sc, ')'] := by
          rw [← hdw, List.takeWhile_append_dropWhile]
        rw [hc]
        conv_lhs => rw [hrest]
        simp
      · rw [if_neg hc] at h
        exact absurd h (by simp)
  · rintro ⟨w, sc, ⟨hne, hw⟩, hsc, rfl⟩
    have hstar : isWordChar '*' = false := by decide
    rw [List.cons_append, matchIndexPart, if_pos rfl,
      takeWhile_all_append hw, List.takeWhile_cons, hstar]
    simp only [Bool.false_eq_true, if_false, List.append_nil]
    rw [dropWhile_all_append hw, List.dropWhile_cons, hstar]
    simp only [Bool.false_eq_true, if_false]
    rw [Bool.and_eq_true_iff]
    exact ⟨by simpa [List.isEmpty_iff] using hne,
      starScaleClose_iff.mpr ⟨sc, hsc, rfl⟩⟩

lemma matchVecIndexPart_iff {i : List Char} :
    matchVecIndexPart i = true ↔ VecIndexOk i := by
  constructor
  · intro h
    match i, h with
    | [], h => exact absurd h (by simp [matchVecIndexPart])
    | [c], h => exact absurd h (by simp [matchVecIndexPart])
    | c :: x :: rest, h =>
      rw [matchVecIndexPart] at h
      by_cases hc : c = '(' ∧ (x = 'X' ∨ x = 'Y' ∨ x = 'Z')
      · rw [if_pos hc] at h
        obtain ⟨hne, hclose⟩ := Bool.and_eq_true_iff.mp h
        obtain ⟨sc, hsc, hdw⟩ := starScaleClose_iff.mp hclose
        refine ⟨x, rest.takeWhile Char.isDigit, sc, hc.2,
          ⟨by simpa [List.isEmpty_iff] using hne,
            fun y hy => List.mem_takeWhile_imp hy⟩, hsc, ?_⟩
        have hrest : rest = rest.takeWhile Char.isDigit ++ ['*', sc, ')'] := by
          rw [← hdw, List.takeWhile_append_dropWhile]
        rw [hc.1]
        conv_lhs => rw [hrest]
        simp
      · rw [if_neg hc] at h
        exact absurd h (by simp)
  · rintro ⟨x, ds, sc, hx, ⟨hne, hdig⟩, hsc, rfl⟩
    have hstar : Char.isDigit '*' = false := by decide
    rw [List.cons_append, List.cons_append, matchVecIndexPart, if_pos ⟨rfl, hx⟩,
      takeWhile_all_append hdig, List.takeWhile_cons, hstar]
    simp only [Bool.false_eq_true, if_false, List.append_nil]
    rw [dropWhile_all_append hdig, List.dropWhile_cons, hstar]
    simp only [Bool.false_eq_true, if_false]
    rw [Bool.and_eq_true_iff]
    exact ⟨by simpa [List.isEmpty_iff] using hne,
      starScaleClose_iff.mpr ⟨sc, hsc, rfl⟩⟩

lemma memArgMatch_iff_spec (s : String) :
    memArgMatch s = true ↔ MemOperandSpec s := by
  constructor
  · intro h
    rw [memArgMatch] at h
    cases hdd : dropDisp s.toList with
    | none =>
      rw [hdd] at h
      exact absurd h (by simp)
    | some cs =>
      simp only [hdd] at h
      cases hpw : parseParenWord cs with
      | none =>
        simp only [hpw] at h
        exact absurd h (by simp)
      | some rest =>
        simp only [hpw] at h
        obtain ⟨d, hdok, hcs⟩ := dropDisp_sound hdd
        obtain ⟨b, hbok, hcs2⟩ := parseParenWord_sound hpw
        rcases Bool.or_eq_true_iff.mp h with hre | hre
        · refine ⟨d, b, [], hdok, hbok, Or.inl rfl, ?_⟩
          rw [hcs, hcs2]
          simp [List.isEmpty_iff.mp hre]
        · refine ⟨d, b, rest, hdok, hbok, Or.inr (matchIndexPart_iff.mp hre), ?_⟩
          rw [hcs, hcs2]
          simp
  · rintro ⟨d, b, i, hdok, hbok, hi, hs⟩
    have hs' : s.toList = d ++ '(' :: (b ++ ')' :: i) := by
      rw [hs]
      simp
    rw [memArgMatch]
    simp only [hs', dropDisp_complete hdok, parseParenWord_complete hbok]
    rcases hi with rfl | hio
    · simp
    · rw [Bool.or_eq_true_iff]
      exact Or.inr (matchIndexPart_iff.mpr hio)

lemma vmemArgMatch_iff_spec (s : String) :
    vmemArgMatch s = true ↔ VecMemOperandSpec s := by
  constructor
  · intro h
    rw [vmemArgMatch] at h
    cases hdd : dropDisp s.toList with
    | none =>
      rw [hdd] at h
      exact absurd h (by simp)
    | some cs =>
      simp only [hdd] at h
      cases hpw : parseParenWord cs with
      | none =>
        simp only [hpw] at h
        exact absurd h (by simp)
      | some rest =>
        simp only [hpw] at h
        obtain ⟨d, hdok, hcs⟩ := dropDisp_sound hdd
        obtain ⟨b, hbok, hcs2⟩ := parseParenWord_sound hpw
        refine ⟨d, b, rest, hdok, hbok, matchVecIndexPart_iff.mp h, ?_⟩
        rw [hcs, hcs2]
        simp
  · rintro ⟨d, b, i, hdok, hbok, hio, hs⟩
    have hs' : s.toList = d ++ '(' :: (b ++ ')' :: i) := by
      rw [hs]
      simp
    rw [vmemArgMatch]
    simp only [hs', dropDisp_complete hdok, parseParenWord_complete hbok]
    exact matchVecIndexPart_iff.mpr hio

lemma vecMemSpec_memSpec {s : String} (h : VecMemOperandSpec s) :
    MemOperandSpec s := by
  obtain ⟨d, b, i, hd, hb, hvec, hs⟩ := h
  refine ⟨d, b, i, hd, hb, Or.inr ?_, hs⟩
  obtain ⟨x, ds, sc, hx, ⟨hne, hdig⟩, hsc, rfl⟩ := hvec
  refine ⟨x :: ds, sc, ⟨by simp, ?_⟩, hsc, by simp⟩
  intro y hy
  rcases List.mem_cons.mp hy with rfl | hy
  · rcases hx with rfl | rfl | rfl <;> decide
  · have hyd := hdig y hy
    simp [isWordChar, Char.isAlphanum, hyd]

/-- C2 counterexample: the operand `"8(AX)(XY1*4)"` satisfies the
claim's vector condition — the index-times-scale suffix is present and
its index register `XY1` begins with `X` — yet the patterns classify it
as a plain `MemoryOperand`, not a `VectorMemoryOperand` (`vmemArgRE`
demands `[XYZ]` immediately followed by digits). -/
theorem classifyOperand_claim_counterexample :
    ClaimVecOperand "8(AX)(XY1*4)" ∧
    classifyOperand "8(AX)(XY1*4)" = OperandClass.MemoryOperand := by
  constructor
  · refine ⟨['8'], ['A', 'X'], ['X', 'Y', '1'], '4',
      Or.inr (Or.inl ⟨by decide, by decide⟩), ⟨by decide, by decide⟩,
      ⟨by decide, by decide⟩, ⟨'X', ['Y', '1'], rfl, Or.inl rfl⟩,
      by decide, by decide⟩
  · decide

/-- C2 (amended): for every operand string, classification by the two
operand patterns is: a string that is an optional signed-integer
displacement, a parenthesized base register, and an optional
parenthesized index-times-scale suffix with scale in \x7b1,2,4,8\x7d is
a MemoryOperand; it is a VectorMemoryOperand exactly when the
index-times-scale suffix is present and its index register is an X, Y or
Z designator immediately followed by a decimal register number; a string
matching neither shape is a PlainOperand.  In particular `"(AX)"` is a
MemoryOperand, `"8(AX)(X1*4)"` a VectorMemoryOperand, `"8(AX)(R1*4)"` a
MemoryOperand, and `"AX"` a PlainOperand. -/
theorem classifyOperand_spec (s : String) :
    (classifyOperand s = .VectorMemoryOperand ↔ VecMemOperandSpec s) ∧
    (classifyOperand s = .MemoryOperand ↔
      (MemOperandSpec s ∧ ¬ VecMemOperandSpec s)) ∧
    (classifyOperand s = .PlainOperand ↔ ¬ MemOperandSpec s) ∧
    classifyOperand "(AX)" = .MemoryOperand ∧
    classifyOperand "8(AX)(X1*4)" = .VectorMemoryOperand ∧
    classifyOperand "8(AX)(R1*4)" = .MemoryOperand ∧
    classifyOperand "AX" = .PlainOperand := by
  refine ⟨?_, ?_, ?_, by decide, by decide, by decide, by decide⟩
  · rw [classifyOperand]
    by_cases hv : vmemArgMatch s = true
    · rw [if_pos hv]
      exact ⟨fun _ => (vmemArgMatch_iff_spec s).mp hv, fun _ => rfl⟩
    · rw [if_neg hv]
      constructor
      · intro h
        by_cases hm : memArgMatch s = true
        · rw [if_pos hm] at h
          exact absurd h (by simp)
        · rw [if_neg hm] at h
          exact absurd h (by simp)
      · intro h
        exact absurd ((vmemArgMatch_iff_spec s).mpr h) hv
  · rw [classifyOperand]
    by_cases hv : vmemArgMatch s = true
    · rw [if_pos hv]
      constructor
      · intro h
        exact absurd h (by simp)
      · rintro ⟨-, hnv⟩
        exact absurd ((vmemArgMatch_iff_spec s).mp hv) hnv
    · rw [if_neg hv]
      by_cases hm : memArgMatch s = true
      · rw [if_pos hm]
        exact ⟨fun _ => ⟨(memArgMatch_iff_spec s).mp hm,
            fun hvs => hv ((vmemArgMatch_iff_spec s).mpr hvs)⟩,
          fun _ => rfl⟩
      · rw [if_neg hm]
        constructor
        · intro h
          exact absurd h (by simp)
        · rintro ⟨hms, -⟩
          exact absurd ((memArgMatch_iff_spec s).mpr hms) hm
  · rw [classifyOperand]
    by_cases hv : vmemArgMatch s = true
    · rw [if_pos hv]
      constructor
      · intro h
        exact absurd h (by simp)
      · intro h
        exact absurd (vecMemSpec_memSpec ((vmemArgMatch_iff_spec s).mp hv)) h
    · rw [if_neg hv]
      by_cases hm : memArgMatch s = true
      · rw [if_pos hm]
        constructor
        · intro h
          exact absurd h (by simp)
        · intro h
          exact absurd ((memArgMatch_iff_spec s).mp hm) h
      · rw [if_neg hm]
        exact ⟨fun _ hms => hm ((memArgMatch_iff_spec s).mpr hms),
          fun _ => rfl⟩
